import Mathlib

/-!
Shallow embedding of the hub75-remastered LED matrix driver
(source files: src/lib.rs and src/pins.rs).

Translation conventions:

* `u8` / `u16` / `u32` machine integers become `Nat`; wherever u32 overflow
  matters (the `duration` multiplication) the wrap is written explicitly as
  `% 2 ^ 32` (release-profile wrapping semantics).
* A color cell `(u8, u8, u8)` becomes `Cell := Nat × Nat × Nat`.
* The fixed arrays `[[(u8,u8,u8); 64]; 16]` become functions
  `Fin 16 → Fin 64 → Cell`; the Rust iteration
  `top_data.iter().zip(&bottom_data).enumerate()` over two equal-length
  fixed arrays is exactly iteration of the index `i` over `0..16`
  (`List.finRange 16`), reading `top_data[i]` and `bottom_data[i]`.
* The external pin and delay collaborators (`IsColorPins`, `IsRowPins`,
  `IsDataPins`, `DelayProvider`) are the fallible environment of `output`.
  One `output` call makes a sequence of trait-level external calls
  (`set_row`, `set_color` upper, `set_color` lower, `shift`, `latch`,
  `show(duration)`); each call is an `Event`.  The environment is a
  function `Nat → Option ε` giving, for the k-th external call of the
  scan, `none` (the call succeeds) or `some err` (the call fails with
  error `err`).  The Rust `?` operator propagates the first failure
  unmodified, so the executed calls are the first failing call and all
  calls before it, and nothing after — `execEvents` below.
* `FrameTimeCompensation::new` checks `(0f64..1f64).contains(&on_ratio)`,
  a half-open range test `0 ≤ on_ratio ∧ on_ratio < 1`; a failed `assert!`
  (a panic) is modelled as `none`.  `on_ratio : f64` is modelled as `ℚ`:
  every comparison the claims exercise is at exactly representable
  values, where f64 comparison agrees with rational comparison.  The
  value of `h` (`(p * on_ratio / (1 - on_ratio)) as u32`, a float
  computation with a saturating cast) is modelled as the exact rational
  floor saturated at `2^32 - 1`; no claim depends on this value — the
  claims about `duration` quantify over the stored `h` directly.
* `draw_iter` (the `DrawTarget` impl, error type `Infallible`) cannot
  fail; it is a total function on the display state.
-/

/-- One 8-bit-per-channel color cell `(u8, u8, u8)` (red, green, blue). -/
abbrev Cell : Type := Nat × Nat × Nat

/-- `2^32`, the modulus of `u32` arithmetic. -/
def U32 : Nat := 2 ^ 32

/-- The fixed 256-entry gamma lookup table `GAMMA8` from `draw_iter`
(src/lib.rs lines 178-191), transcribed value for value. -/
def GAMMA8 : List Nat := [
  0, 0, 0, 0, 0, 0, 0, 0, 0, 0, 0, 0, 0, 0, 0, 0,
  0, 0, 0, 0, 0, 0, 0, 0, 0, 0, 0, 0, 1, 1, 1, 1,
  1, 1, 1, 1, 1, 1, 1, 1, 1, 2, 2, 2, 2, 2, 2, 2,
  2, 3, 3, 3, 3, 3, 3, 3, 4, 4, 4, 4, 4, 5, 5, 5,
  5, 6, 6, 6, 6, 7, 7, 7, 7, 8, 8, 8, 9, 9, 9, 10,
  10, 10, 11, 11, 11, 12, 12, 13, 13, 13, 14, 14, 15, 15, 16, 16,
  17, 17, 18, 18, 19, 19, 20, 20, 21, 21, 22, 22, 23, 24, 24, 25,
  25, 26, 27, 27, 28, 29, 29, 30, 31, 32, 32, 33, 34, 35, 35, 36,
  37, 38, 39, 39, 40, 41, 42, 43, 44, 45, 46, 47, 48, 49, 50, 50,
  51, 52, 54, 55, 56, 57, 58, 59, 60, 61, 62, 63, 64, 66, 67, 68,
  69, 70, 72, 73, 74, 75, 77, 78, 79, 81, 82, 83, 85, 86, 87, 89,
  90, 92, 93, 95, 96, 98, 99, 101, 102, 104, 105, 107, 109, 110, 112, 114,
  115, 117, 119, 120, 122, 124, 126, 127, 129, 131, 133, 135, 137, 138, 140, 142,
  144, 146, 148, 150, 152, 154, 156, 158, 160, 162, 164, 167, 169, 171, 173, 175,
  177, 180, 182, 184, 186, 189, 191, 193, 196, 198, 200, 203, 205, 208, 210, 213,
  215, 218, 220, 223, 225, 228, 231, 233, 236, 239, 241, 244, 247, 249, 252, 255]

/-- Indexing `GAMMA8[i]`.  All in-range uses satisfy `i < 256`
(the Rust index would panic otherwise); the default is never reached
by any claim. -/
def gamma8 (i : Nat) : Nat := GAMMA8.getD i 0

/-- The brightness-compensation state: the stored `u32` constant `h`
(src/lib.rs lines 27-29). -/
structure FrameTimeCompensation where
  h : Nat
deriving DecidableEq

/-- `FrameTimeCompensation::new` (src/lib.rs lines 32-41):
`assert!((0f64..1f64).contains(&on_ratio))` — a half-open range, so the
assertion passes exactly when `0 ≤ on_ratio < 1`; a panic is `none`.
The stored `h` is `((2*BITS+1) * on_ratio / (1 - on_ratio)) as u32`,
modelled as the exact rational floor with the saturating `as u32` cast. -/
def FrameTimeCompensation.new (BITS : Nat) (on_ratio : ℚ) :
    Option FrameTimeCompensation :=
  if 0 ≤ on_ratio ∧ on_ratio < 1 then
    some ⟨min (⌊((2 * BITS + 1 : Nat) : ℚ) * on_ratio / (1 - on_ratio)⌋.toNat)
            (U32 - 1)⟩
  else
    none

/-- `FrameTimeCompensation::duration` (src/lib.rs lines 43-45):
`2u32.pow(*mask as u32) * self.h / (2u32.pow(BITS as u32) - 1)`.
The `u32` product wraps on overflow (release profile), written `% U32`.
For the bit depths the claims quantify over (`BITS ≤ 8`, `mask < BITS`)
the two powers themselves fit in `u32` without overflow, so only the
product needs the explicit wrap. -/
def FrameTimeCompensation.duration (BITS : Nat) (ftc : FrameTimeCompensation)
    (mask : Nat) : Nat :=
  2 ^ mask * ftc.h % U32 / (2 ^ BITS - 1)

/-- The display state of `Hub75_64_32_2` (src/lib.rs lines 51-65): the
two framebuffer halves and the compensation state.  The four pin groups
are external collaborators, modelled as the environment of `output`. -/
structure Hub75_64_32_2 where
  top_data : Fin 16 → Fin 64 → Cell
  bottom_data : Fin 16 → Fin 64 → Cell
  ftc : FrameTimeCompensation

/-- `Hub75_64_32_2::new` (src/lib.rs lines 81-101): builds the
compensation state (propagating its panic as `none`) and zeroes both
framebuffer halves.  `BITS` is a const generic: note there is no check
on it anywhere in the constructor. -/
def Hub75_64_32_2.new (BITS : Nat) (on_ratio : ℚ) : Option Hub75_64_32_2 :=
  (FrameTimeCompensation.new BITS on_ratio).map fun ftc =>
    { top_data := fun _ _ => (0, 0, 0)
      bottom_data := fun _ _ => (0, 0, 0)
      ftc := ftc }

/-- The all-black display with `h = 0` (what `Hub75_64_32_2.new _ 0`
produces), used as a concrete instance in witnesses. -/
def initHub : Hub75_64_32_2 :=
  { top_data := fun _ _ => (0, 0, 0)
    bottom_data := fun _ _ => (0, 0, 0)
    ftc := ⟨0⟩ }

/-- One trait-level external call made by `output`: `set_row` on the row
pins, `set_color` on the upper or lower color pins (recording the three
computed pin states), and `shift` / `latch` / `show(duration)` on the
data pins.  `showFor` renders the `show` call. -/
inductive Event where
  | setRow (i : Nat)
  | setColorUpper (p : Bool × Bool × Bool)
  | setColorLower (p : Bool × Bool × Bool)
  | shift
  | latch
  | showFor (d : Nat)
deriving DecidableEq

/-- Whether an event is a `shift` call. -/
def Event.isShift : Event → Bool
  | .shift => true
  | _ => false

/-- Whether an event is a `show` call. -/
def Event.isShow : Event → Bool
  | .showFor _ => true
  | _ => false

/-- `IsColorPins::set_color` for the `(R, G, B)` pin triple
(src/pins.rs lines 59-84): each channel's pin is driven high exactly when
`(channel >> (mask + 8 - BITS)) & 0x1 == 1`.  Faithful to the `u8`
arithmetic for `BITS ≤ mask + 8`, which holds for all bit depths the
claims quantify over (`BITS ≤ 8`). -/
def set_color (BITS : Nat) (c : Cell) (mask : Nat) : Bool × Bool × Bool :=
  (((c.1 >>> (mask + 8 - BITS)) &&& 1) == 1,
   ((c.2.1 >>> (mask + 8 - BITS)) &&& 1) == 1,
   ((c.2.2 >>> (mask + 8 - BITS)) &&& 1) == 1)

/-- The external calls made by the body of the row loop of
`Hub75_64_32_2::output` for the row of index `i`
(src/lib.rs lines 107-121): `set_row(i)`, then for each `mask` in
`0..BITS`: for each of the 64 columns `set_color` upper, `set_color`
lower, `shift`; then `latch`; then `show(duration(mask))`. -/
def rowEvents (BITS : Nat) (d : Hub75_64_32_2) (i : Fin 16) : List Event :=
  Event.setRow i.val ::
    (List.range BITS).flatMap fun mask =>
      ((List.finRange 64).flatMap fun c =>
        [Event.setColorUpper (set_color BITS (d.top_data i c) mask),
         Event.setColorLower (set_color BITS (d.bottom_data i c) mask),
         Event.shift])
      ++ [Event.latch, Event.showFor (d.ftc.duration BITS mask)]

/-- The row loop of `output`, threading the display state (`&mut self`)
through the iterations exactly as the Rust does: the loop body only
reads the framebuffer, so each iteration passes the state on. -/
def outputRows (BITS : Nat) :
    Hub75_64_32_2 → List (Fin 16) → Hub75_64_32_2 × List Event
  | d, [] => (d, [])
  | d, i :: rest =>
    let evs := rowEvents BITS d i
    let r := outputRows BITS d rest
    (r.1, evs ++ r.2)

/-- The full sequence of external calls one `output` call attempts
(together with the final display state), before accounting for
failures. -/
def outputCalls (BITS : Nat) (d : Hub75_64_32_2) : Hub75_64_32_2 × List Event :=
  outputRows BITS d (List.finRange 16)

/-- Runs a call sequence against the environment: the `k`-th call fails
with `err` when `env k = some err`.  Returns the calls actually executed
(the failing call included) and the propagated outcome: the Rust `?`
operator returns the first error unmodified and skips everything
after it. -/
def execEvents {ε : Type} (env : Nat → Option ε) :
    List Event → Nat → List Event × Except ε Unit
  | [], _ => ([], Except.ok ())
  | e :: rest, k =>
    match env k with
    | some err => ([e], Except.error err)
    | none =>
      let r := execEvents env rest (k + 1)
      (e :: r.1, r.2)

/-- `Hub75_64_32_2::output` (src/lib.rs lines 106-125) run against a
pin/delay environment: the resulting display state, the external calls
executed, and the returned `Result`. -/
def Hub75_64_32_2.output {ε : Type} (BITS : Nat) (env : Nat → Option ε)
    (d : Hub75_64_32_2) : Hub75_64_32_2 × List Event × Except ε Unit :=
  let c := outputCalls BITS d
  let r := execEvents env c.2 0
  (c.1, r.1, r.2)

/-- The three pin states the spec describes for one column (§4.3 step 2a
and §6): "the color cells' bit at position `(mask + 8 - BITS)` of each
channel".  Stated with `Nat.testBit`, to be compared against the
source-side `set_color`. -/
def specBits (BITS : Nat) (c : Cell) (mask : Nat) : Bool × Bool × Bool :=
  (c.1.testBit (mask + 8 - BITS),
   c.2.1.testBit (mask + 8 - BITS),
   c.2.2.testBit (mask + 8 - BITS))

/-- The scan sequence as the spec's §4.3 algorithm words it: for each of
the 16 rows in ascending order, `set_row` with that row index, then for
each bit-plane mask from `0` to `BITS - 1` ascending: 64 column shifts,
each preceded by presenting the upper-half and lower-half cells' bit at
position `(mask + 8 - BITS)` of each channel; then one latch; then one
show with `duration(mask)`. -/
def scanSpec (BITS : Nat) (d : Hub75_64_32_2) : List Event :=
  (List.finRange 16).flatMap fun i =>
    Event.setRow i.val ::
      (List.range BITS).flatMap fun mask =>
        ((List.finRange 64).flatMap fun c =>
          [Event.setColorUpper (specBits BITS (d.top_data i c) mask),
           Event.setColorLower (specBits BITS (d.bottom_data i c) mask),
           Event.shift])
        ++ [Event.latch, Event.showFor (d.ftc.duration BITS mask)]

/-- The 5-bit red channel of a raw `Rgb565` color word:
`(raw >> 11) & 0x1f`. -/
def r565 (w : Nat) : Nat := w >>> 11 &&& 31

/-- The 6-bit green channel of a raw `Rgb565` color word:
`(raw >> 5) & 0x3f`. -/
def g565 (w : Nat) : Nat := w >>> 5 &&& 63

/-- The 5-bit blue channel of a raw `Rgb565` color word: `raw & 0x1f`. -/
def b565 (w : Nat) : Nat := w &&& 31

/-- The gamma-corrected cell `draw_iter` stores for a color
(src/lib.rs lines 196-206):
`(GAMMA8[(r+1)*8-1], GAMMA8[(g+1)*4-1], GAMMA8[(b+1)*8-1])`. -/
def quantize (w : Nat) : Cell :=
  (gamma8 ((r565 w + 1) * 8 - 1),
   gamma8 ((g565 w + 1) * 4 - 1),
   gamma8 ((b565 w + 1) * 8 - 1))

/-- Array element assignment `grid[r][c] = v` on a framebuffer half. -/
def updCell (f : Fin 16 → Fin 64 → Cell) (r c : Nat) (v : Cell) :
    Fin 16 → Fin 64 → Cell :=
  fun i j => if i.val = r ∧ j.val = c then v else f i j

/-- The per-pixel body of `DrawTarget::draw_iter`
(src/lib.rs lines 193-209).  Coordinates are `i32` (`Int`); the guard
and the split at `y < 16` are the source's, and an out-of-bounds
coordinate falls through to the unchanged display (the impl's error
type is `Infallible`, so no error is ever returned). -/
def drawPixel (d : Hub75_64_32_2) (x y : Int) (w : Nat) : Hub75_64_32_2 :=
  if 0 ≤ x ∧ x < 64 ∧ 0 ≤ y ∧ y < 32 then
    if y < 16 then
      { d with top_data := updCell d.top_data y.toNat x.toNat (quantize w) }
    else
      { d with bottom_data :=
          updCell d.bottom_data (y - 16).toNat x.toNat (quantize w) }
  else
    d

/-- `DrawTarget::draw_iter`: folds the per-pixel write over the supplied
sequence of `(coordinate, color)` pairs, in order. -/
def draw_iter (d : Hub75_64_32_2) (ps : List (Int × Int × Nat)) :
    Hub75_64_32_2 :=
  ps.foldl (fun acc p => drawPixel acc p.1 p.2.1 p.2.2) d

-- Helper lemmas

/-- The source's pin condition `(c >> i) & 0x1 == 1` is bit `i` of `c`. -/
theorem shiftand_eq_testBit (n i : Nat) :
    (((n >>> i) &&& 1) == 1) = n.testBit i := by
  rcases Nat.mod_two_eq_zero_or_one (n / 2 ^ i) with h | h <;>
    simp [Nat.testBit_to_div_mod, Nat.shiftRight_eq_div_pow,
      Nat.and_one_is_mod, h]

/-- The source-side `set_color` pin states coincide with the spec-side
`specBits` description. -/
theorem set_color_eq_specBits : @set_color = @specBits := by
  funext BITS c mask
  simp only [set_color, specBits, Prod.mk.injEq]
  exact ⟨shiftand_eq_testBit _ _, shiftand_eq_testBit _ _,
    shiftand_eq_testBit _ _⟩

/-- The row loop returns the display unchanged and concatenates the
per-row call sequences in row order. -/
theorem outputRows_eq (BITS : Nat) (d : Hub75_64_32_2) (l : List (Fin 16)) :
    outputRows BITS d l = (d, l.flatMap (rowEvents BITS d)) := by
  induction l with
  | nil => rfl
  | cons i rest ih => simp [outputRows, ih]

/-- The calls one `output` call attempts are exactly the spec's §4.3
scan sequence. -/
theorem outputCalls_eq_scanSpec (BITS : Nat) (d : Hub75_64_32_2) :
    outputCalls BITS d = (d, scanSpec BITS d) := by
  rw [outputCalls, outputRows_eq]
  refine congrArg (Prod.mk d) (List.flatMap_congr fun i _ => ?_)
  simp only [rowEvents, set_color_eq_specBits]

/-- In an environment where no call fails, every call is executed and
the scan returns `Ok(())`. -/
theorem execEvents_ok {ε : Type} (env : Nat → Option ε)
    (henv : ∀ j, env j = none) :
    ∀ (l : List Event) (k : Nat), execEvents env l k = (l, Except.ok ()) := by
  intro l
  induction l with
  | nil => intro k; rfl
  | cons e rest ih => intro k; simp [execEvents, henv k, ih (k + 1)]

/-- If the first failing call is the `n`-th one (0-indexed) and the
sequence is at least that long, execution performs exactly the calls up
to and including the failing one and propagates that error unmodified. -/
theorem execEvents_fail {ε : Type} (env : Nat → Option ε) (err : ε) :
    ∀ (l : List Event) (k0 n : Nat),
      (∀ j, j < n → env (k0 + j) = none) → env (k0 + n) = some err →
      n < l.length →
      execEvents env l k0 = (l.take (n + 1), Except.error err) := by
  intro l
  induction l with
  | nil => intro k0 n _ _ hn; simp at hn
  | cons e rest ih =>
    intro k0 n hb hf hn
    cases n with
    | zero =>
      simp only [Nat.add_zero] at hf
      simp [execEvents, hf]
    | succ m =>
      have h0 : env k0 = none := by
        have := hb 0 (Nat.succ_pos m)
        simpa using this
      have hrest :
          execEvents env rest (k0 + 1) = (rest.take (m + 1), Except.error err) := by
        refine ih (k0 + 1) m (fun j hj => ?_) ?_ ?_
        · have := hb (j + 1) (by omega)
          have hadd : k0 + (j + 1) = k0 + 1 + j := by omega
          rwa [hadd] at this
        · have hadd : k0 + (m + 1) = k0 + 1 + m := by omega
          rwa [hadd] at hf
        · simpa using Nat.lt_of_succ_lt_succ hn
      simp [execEvents, h0, hrest]

/-- Number of `shift` calls in the scan sequence: 64 per bit-plane,
`BITS` bit-planes per row, 16 rows. -/
theorem scanSpec_countShift (BITS : Nat) (d : Hub75_64_32_2) :
    (scanSpec BITS d).countP Event.isShift = 16 * (BITS * 64) := by
  simp [scanSpec, List.countP_flatMap, List.countP_append, List.countP_cons,
    Event.isShift, Function.comp_def, List.map_const', List.sum_replicate,
    smul_eq_mul, List.length_finRange, List.length_range, List.countP_nil]
  omega

/-- Number of `show` calls in the scan sequence: one per bit-plane. -/
theorem scanSpec_countShow (BITS : Nat) (d : Hub75_64_32_2) :
    (scanSpec BITS d).countP Event.isShow = 16 * BITS := by
  simp [scanSpec, List.countP_flatMap, List.countP_append, List.countP_cons,
    Event.isShow, Function.comp_def, List.map_const', List.sum_replicate,
    smul_eq_mul, List.length_finRange, List.length_range, List.countP_nil]
  omega

set_option maxRecDepth 8192 in
/-- Adjacent entries of the gamma table are nondecreasing. -/
theorem gamma8_adjacent : ∀ i, i < 255 → gamma8 i ≤ gamma8 (i + 1) := by decide

/-- Nondecreasing over any gap, by induction on the gap. -/
theorem gamma8_mono_gap :
    ∀ (g i : Nat), i + g ≤ 255 → gamma8 i ≤ gamma8 (i + g) := by
  intro g
  induction g with
  | zero => intro i _; simp
  | succ k ih =>
    intro i h
    have h1 : gamma8 i ≤ gamma8 (i + k) := ih i (by omega)
    have h2 : gamma8 (i + k) ≤ gamma8 (i + k + 1) :=
      gamma8_adjacent (i + k) (by omega)
    have hadd : i + (k + 1) = i + k + 1 := by omega
    rw [hadd]
    exact le_trans h1 h2

/-- `duration` agrees with the exact integer formula whenever the `u32`
product does not overflow. -/
theorem duration_no_overflow (BITS hc mask : Nat) (hov : 2 ^ mask * hc < U32) :
    FrameTimeCompensation.duration BITS ⟨hc⟩ mask =
      2 ^ mask * hc / (2 ^ BITS - 1) := by
  unfold FrameTimeCompensation.duration
  rw [Nat.mod_eq_of_lt hov]

/-- Length of the scan sequence: per row one `set_row` plus, per
bit-plane, 64 columns of three calls plus `latch` and `show`. -/
theorem scanSpec_length (BITS : Nat) (d : Hub75_64_32_2) :
    (scanSpec BITS d).length = 16 * (1 + BITS * 194) := by
  simp [scanSpec, List.length_flatMap, Function.comp_def, List.map_const',
    List.sum_replicate, smul_eq_mul, List.length_finRange, List.length_range]
  omega

-- Claim theorems

/-- Claim C1: for every framebuffer state and every supported bit depth
(`1 ≤ BITS ≤ 8`), one `output` call in a failure-free environment
performs exactly the spec's scan: for each of the 16 rows in ascending
order one `set_row` with that row index, then for each bit-plane mask
from `0` to `BITS - 1` ascending 64 column shifts, each preceded by
setting the upper-half and lower-half color pins to bit position
`mask + 8 - BITS` of each 8-bit channel of the corresponding cell, then
exactly one latch and one show with `duration(mask)`; in particular for
`BITS = 4` the scan issues exactly `16 * 4 * 64` shifts and 64 shows. -/
theorem c1_scan_structure {ε : Type} (BITS : Nat) (d : Hub75_64_32_2)
    (env : Nat → Option ε) (hB1 : 1 ≤ BITS) (hB8 : BITS ≤ 8)
    (henv : ∀ k, env k = none) :
    (Hub75_64_32_2.output BITS env d).2.1 = scanSpec BITS d
    ∧ (Hub75_64_32_2.output BITS env d).2.2 = Except.ok ()
    ∧ (scanSpec BITS d).countP Event.isShift = 16 * BITS * 64
    ∧ (scanSpec BITS d).countP Event.isShow = 16 * BITS
    ∧ ((Hub75_64_32_2.output 4 env d).2.1).countP Event.isShift = 16 * 4 * 64
    ∧ ((Hub75_64_32_2.output 4 env d).2.1).countP Event.isShow = 64 := by
  have hout : ∀ B, (Hub75_64_32_2.output B env d).2.1 = scanSpec B d
      ∧ (Hub75_64_32_2.output B env d).2.2 = Except.ok () := by
    intro B
    have h1 := outputCalls_eq_scanSpec B d
    have h2 := execEvents_ok env henv (scanSpec B d) 0
    constructor <;> simp [Hub75_64_32_2.output, h1, h2]
  refine ⟨(hout BITS).1, (hout BITS).2, ?_, scanSpec_countShow BITS d, ?_, ?_⟩
  · rw [scanSpec_countShift]; ring
  · rw [(hout 4).1, scanSpec_countShift]
  · rw [(hout 4).1, scanSpec_countShow]

/-- Witness for C1: bit depth 4, the all-black display, all-success
environment. -/
theorem c1_scan_structure_witness :
    (Hub75_64_32_2.output 4 (fun _ => (none : Option Unit)) initHub).2.1
        = scanSpec 4 initHub
    ∧ (Hub75_64_32_2.output 4 (fun _ => (none : Option Unit)) initHub).2.2
        = Except.ok ()
    ∧ (scanSpec 4 initHub).countP Event.isShift = 16 * 4 * 64
    ∧ (scanSpec 4 initHub).countP Event.isShow = 16 * 4
    ∧ ((Hub75_64_32_2.output 4 (fun _ => (none : Option Unit)) initHub).2.1).countP
        Event.isShift = 16 * 4 * 64
    ∧ ((Hub75_64_32_2.output 4 (fun _ => (none : Option Unit)) initHub).2.1).countP
        Event.isShow = 64 :=
  c1_scan_structure 4 initHub (fun _ => none) (by decide) (by decide)
    (fun _ => rfl)

/-- Claim C2 counterexample: at the storable constant `H = 2^31`
(reachable, since the `as u32` cast saturates for `on_ratio` close
to 1), `BITS = 2`, `mask = 1`, the `u32` product `2^mask * H` wraps,
so the computed duration (0) differs from the exact integer formula
(1431655765). -/
theorem c2_counterexample :
    FrameTimeCompensation.duration 2 ⟨2 ^ 31⟩ 1
      ≠ 2 ^ 1 * 2 ^ 31 / (2 ^ 2 - 1) := by decide

/-- Claim C2 (amended): for every stored `H`, `1 ≤ BITS ≤ 8` and
`mask ≤ BITS - 1`, as long as the `u32` product `2^mask * H` does not
overflow, the hold duration equals `floor(2^mask * H / (2^BITS - 1))`
exactly; on overflow the product wraps modulo `2^32` first. -/
theorem c2_duration_exact (BITS hc mask : Nat) (hB1 : 1 ≤ BITS)
    (hB8 : BITS ≤ 8) (hm : mask ≤ BITS - 1) (hov : 2 ^ mask * hc < U32) :
    FrameTimeCompensation.duration BITS ⟨hc⟩ mask =
      2 ^ mask * hc / (2 ^ BITS - 1) :=
  duration_no_overflow BITS hc mask hov

/-- Witness for C2 (amended) at `BITS = 4`, `H = 1000`, `mask = 3`. -/
theorem c2_duration_exact_witness :
    FrameTimeCompensation.duration 4 ⟨1000⟩ 3 = 2 ^ 3 * 1000 / (2 ^ 4 - 1) :=
  c2_duration_exact 4 1000 3 (by decide) (by decide) (by decide) (by decide)

/-- Claim C3: every in-bounds pixel write stores the cell
`(GAMMA8[(r+1)*8-1], GAMMA8[(g+1)*4-1], GAMMA8[(b+1)*8-1])` built from
the 5-bit red/blue and 6-bit green channels of the 565 color — in the
upper half for `y < 16` and in the lower half for `16 ≤ y < 32`; in
particular writing `(0,0)` with color value 0 yields upper-half cell
`(0,0)` equal to `(gamma8 7, gamma8 3, gamma8 7)`. -/
theorem c3_gamma_write :
    (∀ (d : Hub75_64_32_2) (w : Nat) (x : Fin 64) (y : Fin 16),
        (drawPixel d (x.val : Int) (y.val : Int) w).top_data y x
          = (gamma8 ((r565 w + 1) * 8 - 1),
             gamma8 ((g565 w + 1) * 4 - 1),
             gamma8 ((b565 w + 1) * 8 - 1)))
    ∧ (∀ (d : Hub75_64_32_2) (w : Nat) (x : Fin 64) (y : Fin 16),
        (drawPixel d (x.val : Int) ((y.val : Int) + 16) w).bottom_data y x
          = (gamma8 ((r565 w + 1) * 8 - 1),
             gamma8 ((g565 w + 1) * 4 - 1),
             gamma8 ((b565 w + 1) * 8 - 1)))
    ∧ (∀ d : Hub75_64_32_2,
        (drawPixel d 0 0 0).top_data 0 0 = (gamma8 7, gamma8 3, gamma8 7)) := by
  have htop : ∀ (d : Hub75_64_32_2) (w : Nat) (x : Fin 64) (y : Fin 16),
      (drawPixel d (x.val : Int) (y.val : Int) w).top_data y x = quantize w := by
    intro d w x y
    have hx := x.isLt
    have hy := y.isLt
    rw [drawPixel, if_pos (by constructor <;> omega), if_pos (by omega)]
    simp [updCell]
  have hbot : ∀ (d : Hub75_64_32_2) (w : Nat) (x : Fin 64) (y : Fin 16),
      (drawPixel d (x.val : Int) ((y.val : Int) + 16) w).bottom_data y x
        = quantize w := by
    intro d w x y
    have hx := x.isLt
    have hy := y.isLt
    rw [drawPixel, if_pos (by constructor <;> omega), if_neg (by omega)]
    have hidx : ((y.val : Int) + 16 - 16).toNat = y.val := by omega
    simp [updCell, hidx]
  refine ⟨fun d w x y => htop d w x y, fun d w x y => hbot d w x y, fun d => ?_⟩
  have h0 := htop d 0 0 0
  simpa [quantize, r565, g565, b565] using h0

/-- C3 instance at the all-black display. -/
theorem c3_gamma_write_witness :
    (drawPixel initHub 0 0 0).top_data 0 0 = (gamma8 7, gamma8 3, gamma8 7) :=
  c3_gamma_write.2.2 initHub

/-- Claim C4 counterexample: the assert is the half-open range test
`(0f64..1f64).contains`, so construction at `on_ratio = 0` (outside the
open interval `(0,1)`) succeeds, contradicting the claim that it must
fail. -/
theorem c4_counterexample : (Hub75_64_32_2.new 4 0).isSome = true := by decide

/-- Claim C4 (amended): construction of the display (and the brightness
compensator) fails exactly when `on_ratio < 0` or `on_ratio ≥ 1`; it
succeeds on the whole half-open interval `[0, 1)`, so `on_ratio = 0` is
accepted while `1`, `-0.1`, `1.5` are rejected. -/
theorem c4_on_ratio_range (BITS : Nat) (r : ℚ) :
    (Hub75_64_32_2.new BITS r = none ↔ (r < 0 ∨ 1 ≤ r))
    ∧ (FrameTimeCompensation.new BITS r = none ↔ (r < 0 ∨ 1 ≤ r)) := by
  have key : FrameTimeCompensation.new BITS r = none ↔ (r < 0 ∨ 1 ≤ r) := by
    rw [FrameTimeCompensation.new]
    by_cases h : 0 ≤ r ∧ r < 1
    · rw [if_pos h]
      refine iff_of_false (Option.some_ne_none _) ?_
      rintro (hc | hc)
      · exact absurd hc (not_lt_of_le h.1)
      · exact absurd hc (not_le_of_lt h.2)
    · rw [if_neg h]
      refine iff_of_true rfl ?_
      rcases not_and_or.mp h with h0 | h1
      · exact Or.inl (not_le.mp h0)
      · exact Or.inr (not_lt.mp h1)
  refine ⟨?_, key⟩
  rw [Hub75_64_32_2.new, Option.map_eq_none']
  exact key

/-- C4 (amended) instance: `on_ratio = 3/2` is rejected. -/
theorem c4_on_ratio_range_witness : Hub75_64_32_2.new 4 (3 / 2) = none :=
  (c4_on_ratio_range 4 (3 / 2)).1.mpr (Or.inr (by norm_num))

/-- Claim C5: in-bounds writes land at upper-half `(y, x)` for `y < 16`
and lower-half `(y - 16, x)` for `16 ≤ y < 32`, touching no other cell
and leaving the other half untouched; `(63, 31)` lands at lower-half
local row 15, column 63; any out-of-bounds write is a no-op leaving the
entire framebuffer unchanged (and `draw_iter`'s error type is
`Infallible`, so no error is returned). -/
theorem c5_pixel_placement :
    (∀ (d : Hub75_64_32_2) (w : Nat) (x : Fin 64) (y : Fin 16),
        (drawPixel d (x.val : Int) (y.val : Int) w).top_data y x = quantize w
        ∧ (drawPixel d (x.val : Int) (y.val : Int) w).bottom_data
            = d.bottom_data
        ∧ (∀ (i : Fin 16) (j : Fin 64), ¬(i = y ∧ j = x) →
            (drawPixel d (x.val : Int) (y.val : Int) w).top_data i j
              = d.top_data i j))
    ∧ (∀ (d : Hub75_64_32_2) (w : Nat) (x : Fin 64) (y : Fin 16),
        (drawPixel d (x.val : Int) ((y.val : Int) + 16) w).bottom_data y x
            = quantize w
        ∧ (drawPixel d (x.val : Int) ((y.val : Int) + 16) w).top_data
            = d.top_data
        ∧ (∀ (i : Fin 16) (j : Fin 64), ¬(i = y ∧ j = x) →
            (drawPixel d (x.val : Int) ((y.val : Int) + 16) w).bottom_data i j
              = d.bottom_data i j))
    ∧ (∀ (d : Hub75_64_32_2) (w : Nat),
        (drawPixel d 63 31 w).bottom_data 15 63 = quantize w)
    ∧ (∀ (d : Hub75_64_32_2) (w : Nat) (x y : Int),
        ¬(0 ≤ x ∧ x < 64 ∧ 0 ≤ y ∧ y < 32) → drawPixel d x y w = d) := by
  have htop : ∀ (d : Hub75_64_32_2) (w : Nat) (x : Fin 64) (y : Fin 16),
      drawPixel d (x.val : Int) (y.val : Int) w
        = { d with top_data := updCell d.top_data y.val x.val (quantize w) } := by
    intro d w x y
    have hx := x.isLt
    have hy := y.isLt
    rw [drawPixel, if_pos (by constructor <;> omega), if_pos (by omega)]
    simp
  have hbot : ∀ (d : Hub75_64_32_2) (w : Nat) (x : Fin 64) (y : Fin 16),
      drawPixel d (x.val : Int) ((y.val : Int) + 16) w
        = { d with bottom_data :=
              updCell d.bottom_data y.val x.val (quantize w) } := by
    intro d w x y
    have hx := x.isLt
    have hy := y.isLt
    rw [drawPixel, if_pos (by constructor <;> omega), if_neg (by omega)]
    have hidx : ((y.val : Int) + 16 - 16).toNat = y.val := by omega
    simp [hidx]
  refine ⟨fun d w x y => ⟨?_, ?_, ?_⟩, fun d w x y => ⟨?_, ?_, ?_⟩, ?_, ?_⟩
  · rw [htop]; simp [updCell]
  · rw [htop]
  · intro i j hne
    rw [htop]
    have : ¬(i.val = y.val ∧ j.val = x.val) := by
      intro hv
      exact hne ⟨Fin.ext hv.1, Fin.ext hv.2⟩
    simp only [updCell]
    rw [if_neg this]
  · rw [hbot]; simp [updCell]
  · rw [hbot]
  · intro i j hne
    rw [hbot]
    have : ¬(i.val = y.val ∧ j.val = x.val) := by
      intro hv
      exact hne ⟨Fin.ext hv.1, Fin.ext hv.2⟩
    simp only [updCell]
    rw [if_neg this]
  · intro d w
    have h := hbot d w (63 : Fin 64) (15 : Fin 16)
    have hcy : (((15 : Fin 16).val : Int)) + 16 = 31 := by decide
    have hcx : (((63 : Fin 64).val : Int)) = 63 := by decide
    rw [hcy, hcx] at h
    rw [h]
    simp [updCell]
  · intro d w x y hoob
    rw [drawPixel, if_neg hoob]

/-- C5 instance: the write at `(64, 0)` (x out of bounds) is a no-op. -/
theorem c5_pixel_placement_witness : drawPixel initHub 64 0 5 = initHub :=
  c5_pixel_placement.2.2.2 initHub 5 64 0 (by decide)

/-- Claim C6: if some external pin/delay call fails — at any row,
bit-plane, or column, i.e. at any position `k` of the scan's call
sequence — `output` returns that error unmodified, and the calls
executed are exactly the ones up to and including the failing call:
no further `set_color`, `shift`, `latch`, `show`, or `set_row` call of
the scan is executed. -/
theorem c6_fail_fast {ε : Type} (BITS : Nat) (d : Hub75_64_32_2)
    (env : Nat → Option ε) (k : Nat) (err : ε)
    (hbefore : ∀ j, j < k → env j = none) (hfail : env k = some err)
    (hk : k < (outputCalls BITS d).2.length) :
    (Hub75_64_32_2.output BITS env d).2.2 = Except.error err
    ∧ (Hub75_64_32_2.output BITS env d).2.1
        = (outputCalls BITS d).2.take (k + 1) := by
  have hexec := execEvents_fail env err (outputCalls BITS d).2 0 k
    (fun j hj => by simpa using hbefore j hj) (by simpa using hfail) hk
  constructor <;> simp [Hub75_64_32_2.output, hexec]

/-- Witness for C6: bit depth 1, all-black display, an environment whose
third call (index 2, the `set_color` on the lower half of the first
column) fails with error code 0. -/
theorem c6_fail_fast_witness :
    (Hub75_64_32_2.output 1 (fun j => if j = 2 then some 0 else none)
        initHub).2.2 = Except.error 0
    ∧ (Hub75_64_32_2.output 1 (fun j => if j = 2 then some 0 else none)
        initHub).2.1 = (outputCalls 1 initHub).2.take 3 :=
  c6_fail_fast 1 initHub (fun j => if j = 2 then some 0 else none) 2 0
    (by decide) (by decide)
    (by
      have h1 := congrArg Prod.snd (outputCalls_eq_scanSpec 1 initHub)
      rw [h1, scanSpec_length]
      decide)

/-- Claim C7 counterexample: at the storable constant `H = 2^31` and
`BITS = 2` the wrapped `u32` product makes `duration(1) = 0` while
`duration(0) = 715827882`, so `duration` is not monotone in the mask for
every `u32` `H`. -/
theorem c7_counterexample :
    ¬ (FrameTimeCompensation.duration 2 ⟨2 ^ 31⟩ 0
        ≤ FrameTimeCompensation.duration 2 ⟨2 ^ 31⟩ 1) := by decide

/-- Claim C7 (amended): for `1 ≤ BITS ≤ 8` and masks
`m1 ≤ m2 ≤ BITS - 1`, the hold duration is non-decreasing in the mask
provided the largest `u32` product `2^(BITS-1) * H` does not overflow
(in particular `duration(BITS-1) ≥ duration(0)` then). -/
theorem c7_duration_monotone (BITS hc m1 m2 : Nat) (hB1 : 1 ≤ BITS)
    (hB8 : BITS ≤ 8) (h12 : m1 ≤ m2) (hm2 : m2 ≤ BITS - 1)
    (hov : 2 ^ (BITS - 1) * hc < U32) :
    FrameTimeCompensation.duration BITS ⟨hc⟩ m1
      ≤ FrameTimeCompensation.duration BITS ⟨hc⟩ m2 := by
  have hb : ∀ m, m ≤ BITS - 1 → 2 ^ m * hc < U32 := fun m hm =>
    lt_of_le_of_lt
      (Nat.mul_le_mul (Nat.pow_le_pow_right (by norm_num) hm) (le_refl hc))
      hov
  rw [duration_no_overflow BITS hc m1 (hb m1 (le_trans h12 hm2)),
    duration_no_overflow BITS hc m2 (hb m2 hm2)]
  exact Nat.div_le_div_right
    (Nat.mul_le_mul (Nat.pow_le_pow_right (by norm_num) h12) (le_refl hc))

/-- Witness for C7 (amended) at `BITS = 4`, `H = 1000`, masks 1 and 3. -/
theorem c7_duration_monotone_witness :
    FrameTimeCompensation.duration 4 ⟨1000⟩ 1
      ≤ FrameTimeCompensation.duration 4 ⟨1000⟩ 3 :=
  c7_duration_monotone 4 1000 1 3 (by decide) (by decide) (by decide)
    (by decide) (by decide)

/-- Claim C8 counterexample: `GAMMA8[28] = 1` but `GAMMA8[1] = 0`, so
gamma lookup is not idempotent. -/
theorem c8_counterexample : gamma8 (gamma8 28) ≠ gamma8 28 := by decide

/-- Claim C8 (amended): the 256-entry gamma table is monotonic
nondecreasing, maps index 0 to 0 and index 255 to 255, but lookup is
NOT idempotent (it fails e.g. at index 28). -/
theorem c8_gamma_table :
    (∀ i j, i ≤ j → j ≤ 255 → gamma8 i ≤ gamma8 j)
    ∧ gamma8 0 = 0 ∧ gamma8 255 = 255
    ∧ ¬ (∀ i, i ≤ 255 → gamma8 (gamma8 i) = gamma8 i) := by
  refine ⟨?_, by decide, by decide, ?_⟩
  · intro i j hij h255
    have h := gamma8_mono_gap (j - i) i (by omega)
    rwa [Nat.add_sub_cancel' hij] at h
  · intro hAll
    have hbad : gamma8 (gamma8 28) ≠ gamma8 28 := by decide
    exact hbad (hAll 28 (by decide))

/-- Witness for C8 (amended): monotonicity instance at indices 40 and
200. -/
theorem c8_gamma_table_witness : gamma8 40 ≤ gamma8 200 :=
  c8_gamma_table.1 40 200 (by decide) (by decide)

/-- Claim C9 counterexample: nothing validates the const generic `BITS`
at construction — a display with `BITS = 0` constructs successfully. -/
theorem c9_counterexample : (Hub75_64_32_2.new 0 0).isSome = true := by decide

/-- Claim C9 (amended): construction does NOT enforce `1 ≤ BITS ≤ 8`.
For every `BITS` — 0 and values above 8 included — construction of the
display and of the brightness compensator succeeds whenever `on_ratio`
passes its range check; only `on_ratio` is validated. -/
theorem c9_no_bits_validation (BITS : Nat) (r : ℚ) (h0 : 0 ≤ r)
    (h1 : r < 1) :
    (Hub75_64_32_2.new BITS r).isSome = true
    ∧ (FrameTimeCompensation.new BITS r).isSome = true := by
  have key : (FrameTimeCompensation.new BITS r).isSome = true := by
    rw [FrameTimeCompensation.new, if_pos ⟨h0, h1⟩]
    rfl
  refine ⟨?_, key⟩
  rw [Hub75_64_32_2.new]
  cases hE : FrameTimeCompensation.new BITS r with
  | none => rw [hE] at key; cases key
  | some f => rfl

/-- Witness for C9 (amended) at the unsupported depth `BITS = 9`. -/
theorem c9_no_bits_validation_witness :
    (Hub75_64_32_2.new 9 0).isSome = true
    ∧ (FrameTimeCompensation.new 9 0).isSome = true :=
  c9_no_bits_validation 9 0 (by decide) (by decide)

/-- Claim C10: an `output` call never modifies the framebuffer or the
compensation constant — for every environment (failing anywhere or
nowhere), the display state after the call is exactly the state before
it; only the external interfaces are driven. -/
theorem c10_output_preserves_state {ε : Type} (BITS : Nat)
    (env : Nat → Option ε) (d : Hub75_64_32_2) :
    (Hub75_64_32_2.output BITS env d).1 = d := by
  simp [Hub75_64_32_2.output, outputCalls, outputRows_eq]
